import Mathlib

/-
Verification of the behavioural specification of `ai_suggest.py` (SciPAn).
The Python module is shallowly embedded below: the HTTP layer and the
environment are made explicit parameters, every pure transformation is
translated function by function, and the claims of the specification are
settled as theorems about the embedding.
-/

set_option maxRecDepth 8000

/-- JSON values as produced by `resp.json()` in `ai_suggest.py`.  Numbers are
modelled as integers; no property below depends on non-integral numerics. -/
inductive Json where
  | null : Json
  | bool : Bool → Json
  | num : Int → Json
  | str : String → Json
  | arr : List Json → Json
  | obj : List (String × Json) → Json

/-- Python truthiness of a JSON-derived value, as used by `if not content:`
and by `or` on lines 80-82 of `ai_suggest.py`. -/
def truthy : Json → Bool
  | Json.null => false
  | Json.bool b => b
  | Json.num n => n != 0
  | Json.str s => s != ""
  | Json.arr xs => !xs.isEmpty
  | Json.obj kvs => !kvs.isEmpty

/-- Python `a or b` on JSON-derived values. -/
def pyOr (a b : Json) : Json := if truthy a then a else b

/-- First-match lookup in a JSON object, as in a Python dict built from JSON. -/
def dictLookup : List (String × Json) → String → Option Json
  | [], _ => none
  | (k, v) :: rest, key => if k = key then some v else dictLookup rest key

/-- Python `d.get(key)`: the stored value, or `None` when the key is absent. -/
def dictGet (kvs : List (String × Json)) (key : String) : Json :=
  (dictLookup kvs key).getD Json.null

/-- The single-quote character. -/
def sQuote : Char := Char.ofNat 39

/-- The double-quote character. -/
def dQuote : Char := Char.ofNat 34

/-- Python `x[0]` on a JSON-derived value: first element of a list, first
character of a string; anything else (or an empty list/string) raises, which
the enclosing `except` turns into the fallback — modelled as `none`. -/
def index0 : Json → Option Json
  | Json.arr (x :: _) => some x
  | Json.str s =>
      match s.data with
      | c :: _ => some (Json.str (String.mk [c]))
      | [] => none
  | _ => none

/-- Escape backslashes and single quotes, as CPython `repr` does inside a
single-quoted string literal. -/
def escSQ : List Char → List Char
  | [] => []
  | c :: rest =>
      if c = '\\' then '\\' :: '\\' :: escSQ rest
      else if c = sQuote then '\\' :: sQuote :: escSQ rest
      else c :: escSQ rest

/-- Escape backslashes, as CPython `repr` does inside a double-quoted
string literal. -/
def escBS : List Char → List Char
  | [] => []
  | c :: rest => if c = '\\' then '\\' :: '\\' :: escBS rest else c :: escBS rest

/-- CPython `repr` of a string without control characters: single-quoted,
except double-quoted when the text holds a single quote but no double quote. -/
def pyReprStr (s : String) : String :=
  if s.data.contains sQuote && !(s.data.contains dQuote) then
    String.mk (dQuote :: (escBS s.data ++ [dQuote]))
  else
    String.mk (sQuote :: (escSQ s.data ++ [sQuote]))

mutual

/-- CPython `repr` of a JSON-derived value, used by `str()` on containers. -/
def pyRepr : Json → String
  | Json.null => "None"
  | Json.bool true => "True"
  | Json.bool false => "False"
  | Json.num n => toString n
  | Json.str s => pyReprStr s
  | Json.arr xs => "[" ++ String.intercalate ", " (pyReprList xs) ++ "]"
  | Json.obj kvs => "\x7b" ++ String.intercalate ", " (pyReprPairs kvs) ++ "\x7d"

/-- `repr` of the elements of a list. -/
def pyReprList : List Json → List String
  | [] => []
  | x :: xs => pyRepr x :: pyReprList xs

/-- `repr` of the items of a dict. -/
def pyReprPairs : List (String × Json) → List String
  | [] => []
  | (k, v) :: rest => (pyReprStr k ++ ": " ++ pyRepr v) :: pyReprPairs rest

end

/-- Python `str()` of a JSON-derived value: a string is itself, anything else
prints as its `repr`. -/
def pyStr : Json → String
  | Json.str s => s
  | j => pyRepr j

/-- Python `str.strip()` on the character list: drop whitespace from both
ends. -/
def pyStripL (l : List Char) : List Char :=
  ((l.dropWhile Char.isWhitespace).reverse.dropWhile Char.isWhitespace).reverse

/-- Python `str.strip()`. -/
def pyStripS (s : String) : String := String.mk (pyStripL s.data)

/-- The characters of the lookbehind class `[.!?]` in the fallback pattern of
`summarize_text`. -/
def sentKeep (c : Char) : Bool := c = '.' || c = '!' || c = '?'

/-- Lookbehind test on the previously scanned character. -/
def prevKeep : Option Char → Bool
  | some c => sentKeep c
  | none => false

/-- One scan of `re.split` with the pattern of lines 62 and 86 of
`ai_suggest.py`.  The raw pattern string, `(?<=[.!?])` followed by a doubled
backslash and `s+`, reaches the regex engine as: lookbehind `[.!?]`, a
literal backslash, then one or more letters `s` — not whitespace.  A split
point therefore needs a `[.!?]` lookbehind, and the match consumes the
backslash and the maximal (greedy) run of letters `s`; `skipping` records
that the scan is inside that run. -/
def buggySplitAux (skipping : Bool) (prev : Option Char) (acc l : List Char) :
    List (List Char) :=
  match l with
  | [] => [acc.reverse]
  | c :: rest =>
    if skipping = true ∧ c = 's' then
      buggySplitAux true (some 's') acc rest
    else if prevKeep prev = true ∧ c = '\\' ∧ rest.head? = some 's' then
      acc.reverse :: buggySplitAux true (some '\\') [] rest
    else
      buggySplitAux false (some c) (c :: acc) rest

/-- Python `" ".join(pieces)` over character-list pieces. -/
def joinSp : List (List Char) → List Char
  | [] => []
  | [p] => p
  | p :: ps => p ++ ' ' :: joinSp ps

/-- The `re.split` call of lines 62 and 86, as the interpreter actually reads
the raw pattern string (matching a literal backslash and letters `s` after
sentence punctuation, never ordinary whitespace). -/
def buggySplit (text : String) : List (List Char) :=
  buggySplitAux false none [] text.data

/-- The fallback summary of lines 62 and 86: join the first three split
pieces with spaces and strip. -/
def fallbackSummary (text : String) : String :=
  String.mk (pyStripL (joinSp ((buggySplit text).take 3)))

/-- Outcome of the completion-API POST: an exception anywhere inside the
`try` (network error, timeout, non-2xx status, malformed JSON), or a parsed
JSON body. -/
inductive ApiOutcome where
  | exn : ApiOutcome
  | json : Json → ApiOutcome

/-- Lines 78-81 of `ai_suggest.py`: the `content` value before the emptiness
test.  `none` models the `AttributeError` raised by `msg.get` when
`message` held a truthy non-dict; a non-dict choice leaves `content` as
`None`. -/
def chooseContent : Json → Option Json
  | Json.obj ckvs =>
      match pyOr (dictGet ckvs "message") (Json.obj []) with
      | Json.obj mkvs => some (pyOr (dictGet mkvs "content") (dictGet ckvs "text"))
      | _ => none
  | _ => some Json.null

/-- Lines 76-84 up to the final strip: extract the summary text from the
parsed response body.  `none` models any exception raised on that path
(`data.get` on a non-dict, indexing failures, `msg.get` on a non-dict, or
`content.strip()` on a truthy non-string). -/
def extractContent (data : Json) : Option String :=
  match data with
  | Json.obj dkvs =>
    match index0 ((dictLookup dkvs "choices").getD (Json.arr [])) with
    | none => none
    | some choice =>
      match chooseContent choice with
      | none => none
      | some c0 =>
        match (if truthy c0 then c0 else Json.str (pyStr choice)) with
        | Json.str s => some s
        | _ => none
  | _ => none

/-- `summarize_text` of `ai_suggest.py`, with the credential and the HTTP
outcome made explicit parameters.  An unset or empty `OPENROUTER_API_KEY`
is falsy, so both take the no-credential branch. -/
def summarize_text (key : Option String) (o : ApiOutcome) (text : String) : String :=
  if key.getD "" = "" then fallbackSummary text
  else
    match o with
    | ApiOutcome.exn => fallbackSummary text
    | ApiOutcome.json data =>
      match extractContent data with
      | some content => pyStripS content
      | none => fallbackSummary text


/-- Python `html.unescape` restricted to the five predefined XML entities.
No property below depends on the full entity table. -/
def htmlUnescape : List Char → List Char
  | [] => []
  | '&' :: 'a' :: 'm' :: 'p' :: ';' :: rest => '&' :: htmlUnescape rest
  | '&' :: 'l' :: 't' :: ';' :: rest => '<' :: htmlUnescape rest
  | '&' :: 'g' :: 't' :: ';' :: rest => '>' :: htmlUnescape rest
  | '&' :: 'q' :: 'u' :: 'o' :: 't' :: ';' :: rest => dQuote :: htmlUnescape rest
  | '&' :: '#' :: '3' :: '9' :: ';' :: rest => sQuote :: htmlUnescape rest
  | c :: rest => c :: htmlUnescape rest

/-- One scan of `re.sub` with the tag pattern of line 41: `<`, one or more
characters other than `>`, then `>`.  While `pending = some mid`, the scan
sits after a `<` whose tag body so far is `mid` (reversed); a closing `>`
with a non-empty body deletes the whole match, an immediate `>` or the end
of input leaves the scanned characters in place. -/
def tagStripAux (pending : Option (List Char)) (l : List Char) : List Char :=
  match l with
  | [] =>
    match pending with
    | none => []
    | some mid => '<' :: mid.reverse
  | c :: rest =>
    match pending with
    | none => if c = '<' then tagStripAux (some []) rest else c :: tagStripAux none rest
    | some mid =>
      if c = '>' then
        if mid.isEmpty then '<' :: '>' :: tagStripAux none rest
        else tagStripAux none rest
      else tagStripAux (some (c :: mid)) rest

/-- `re.sub(r"<[^>]+>", "", s)` of line 41. -/
def tagStrip (l : List Char) : List Char := tagStripAux none l

/-- One entry of the parsed syndication feed, as `feedparser` presents it to
the loop of lines 38-50: every field the loop reads is optional (`getattr`
with a default), and each author object is represented by its `name`. -/
structure FeedEntry where
  title : Option String
  summary : Option String
  link : Option String
  authors : Option (List String)
  published : Option String
  id : Option String
deriving DecidableEq

/-- The six-field paper dictionary appended on lines 43-50. -/
structure PaperRecord where
  title : String
  summary : String
  link : String
  authors : String
  published : String
  id : String
deriving DecidableEq

/-- The loop body of lines 38-50: build one `PaperRecord` from one feed
entry.  The summary is HTML-unescaped, stripped, then tag-stripped; the
title is stripped; authors are comma-joined; missing fields default to
empty strings (or an empty author list). -/
def recordOfEntry (e : FeedEntry) : PaperRecord :=
  { title := pyStripS (e.title.getD "")
  , summary := String.mk (tagStrip (pyStripL (htmlUnescape (e.summary.getD "").data)))
  , link := e.link.getD ""
  , authors := String.intercalate ", " (e.authors.getD [])
  , published := e.published.getD ""
  , id := e.id.getD "" }

/-- Outcome of the arXiv GET of lines 30-31: any exception from
`requests.get` or `raise_for_status` (network error, timeout, non-2xx
status), or the response text as parsed by `feedparser` into a list of
entries.  `feedparser.parse` itself does not raise on malformed input; it
yields a (possibly empty) entry list. -/
inductive FetchOutcome where
  | netError : FetchOutcome
  | ok : List FeedEntry → FetchOutcome

/-- `search_arxiv` of `ai_suggest.py` with the HTTP outcome made explicit:
an empty list on failure, otherwise one record per feed entry. -/
def search_arxiv (outcome : FetchOutcome) : List PaperRecord :=
  match outcome with
  | FetchOutcome.netError => []
  | FetchOutcome.ok entries => entries.map recordOfEntry

/-- Modelled from the spec: the search endpoint itself is outside this
repository.  Per the specification the query carries a result-count
parameter sorted newest first, and the Fetcher receives
`min(available, cap)` entries — the first `cap` of the available ones. -/
def arxivResponse (available : List FeedEntry) (cap : Nat) : List FeedEntry :=
  available.take cap

/-- The fixed topic of the module configuration. -/
def TOPIC : String := "microwave plasma CVD diamond growth"

/-- The title line of line 91, with the current date a parameter. -/
def headerLine (today : String) : String :=
  "# Weekly Digest: " ++ TOPIC ++ " (" ++ today ++ ")\n"

/-- The four lines appended for one paper on lines 93-97. -/
def paperBlock (key : Option String) (oi : ApiOutcome) (i : Nat) (p : PaperRecord) :
    List String :=
  ["### " ++ toString i ++ ". " ++ p.title,
   "**Authors:** " ++ p.authors,
   "**Summary:** " ++ summarize_text key oi p.summary,
   "[Read on arXiv](" ++ p.link ++ ")\n"]

/-- The `for i, paper in enumerate(papers, 1)` loop of lines 92-97,
appending each paper's block to `lines`.  `o i` is the outcome of the
completion-API call made for the `i`-th paper. -/
def digestLoop (key : Option String) (o : Nat → ApiOutcome) (i : Nat)
    (papers : List PaperRecord) (lines : List String) : List String :=
  match papers with
  | [] => lines
  | p :: rest => digestLoop key o (i + 1) rest (lines ++ paperBlock key (o i) i p)

/-- `generate_digest` of `ai_suggest.py`, with the current date, the
credential and the per-call API outcomes made explicit. -/
def generate_digest (today : String) (key : Option String) (o : Nat → ApiOutcome)
    (papers : List PaperRecord) : String :=
  String.intercalate "\n" (digestLoop key o 1 papers [headerLine today])


/-- A feed entry with every optional field absent, used as a concrete
witness input. -/
def sampleEntry : FeedEntry := ⟨none, none, none, none, none, none⟩

/-- A concrete paper record used as a witness input. -/
def samplePaper : PaperRecord := ⟨"T", "S", "L", "A", "P", "I"⟩

/-- Closed form of the loop of lines 92-97: the four-line blocks of all
papers, concatenated in input order with 1-based ordinals from `i`. -/
def sectionBlocks (key : Option String) (o : Nat → ApiOutcome) :
    Nat → List PaperRecord → List String
  | _, [] => []
  | i, p :: rest => paperBlock key (o i) i p ++ sectionBlocks key o (i + 1) rest

/-- C1.  The spec says the no-credential fallback returns the first three
sentence segments, so "A. B. C. D." should give "A. B. C.".  The code
disagrees: the raw pattern string of line 62 doubles the backslash, so the
regex matches a literal backslash plus letters `s` — never whitespace — and
`re.split` returns the input whole.  This theorem evaluates the embedded
code at the failing input: the whole text comes back. -/
theorem summarize_fallback_no_split_on_failing_input :
    summarize_text none ApiOutcome.exn "A. B. C. D." = "A. B. C. D." := by
  decide

/-- C4.  Whatever the credential, when the completion request raises,
`summarize_text` returns exactly the no-credential result for the same
input text: lines 62 and 86 compute the same expression. -/
theorem summarize_exception_matches_no_credential
    (key : Option String) (o : ApiOutcome) (text : String) :
    summarize_text key ApiOutcome.exn text = summarize_text none o text := by
  by_cases h : key.getD "" = "" <;> simp [summarize_text, h]

/-- C5.  On any network or status failure of the GET, `search_arxiv`
returns the empty list: the caller sees zero results and no error. -/
theorem search_arxiv_empty_on_network_failure :
    search_arxiv FetchOutcome.netError = [] := rfl

/-- C8.  On an empty paper list the digest is exactly the title line with
the fixed topic and the current date — no paper sections follow. -/
theorem digest_empty_input_title_only (today : String) (key : Option String)
    (o : Nat → ApiOutcome) :
    generate_digest today key o [] =
      "# Weekly Digest: " ++ TOPIC ++ " (" ++ today ++ ")\n" := by
  simp [generate_digest, digestLoop, headerLine, String.intercalate,
    String.intercalate.go]

/-- C3.  On a successful completion call the summarizer takes the
message-object `content` field when present (the spec scenario
`choices[0].message.content = "X"` yields `"X"`), otherwise the choice's
`text` field when present, and with neither present it returns the
stringification of the first choices element (the structure the parser was
examining), stripped on return. -/
theorem summarize_success_response_shapes (k text : String) (hk : k ≠ "") :
    (∀ s : String, s ≠ "" →
      summarize_text (some k)
        (ApiOutcome.json (Json.obj [("choices",
          Json.arr [Json.obj [("message", Json.obj [("content", Json.str s)])]])]))
        text = pyStripS s)
    ∧ (∀ t : String, t ≠ "" →
      summarize_text (some k)
        (ApiOutcome.json (Json.obj [("choices",
          Json.arr [Json.obj [("text", Json.str t)]])]))
        text = pyStripS t)
    ∧ (∀ ckvs : List (String × Json),
        dictLookup ckvs "message" = none → dictLookup ckvs "text" = none →
        summarize_text (some k)
          (ApiOutcome.json (Json.obj [("choices", Json.arr [Json.obj ckvs])]))
          text = pyStripS (pyStr (Json.obj ckvs)))
    ∧ summarize_text (some k)
        (ApiOutcome.json (Json.obj [("choices",
          Json.arr [Json.obj [("message", Json.obj [("content", Json.str "X")])]])]))
        text = "X" := by
  refine ⟨?_, ?_, ?_, ?_⟩
  · intro s hs
    simp [summarize_text, hk, extractContent, chooseContent, index0, dictLookup,
      dictGet, pyOr, truthy, hs]
  · intro t ht
    simp [summarize_text, hk, extractContent, chooseContent, index0, dictLookup,
      dictGet, pyOr, truthy, ht]
  · intro ckvs h1 h2
    simp [summarize_text, hk, extractContent, chooseContent, index0, dictLookup,
      dictGet, pyOr, truthy, h1, h2]
  · simp [summarize_text, hk, extractContent, chooseContent, index0, dictLookup,
      dictGet, pyOr, truthy]
    decide

/-- C3 witness: the spec scenario, instantiated. -/
theorem summarize_success_response_shapes_witness :
    summarize_text (some "key")
      (ApiOutcome.json (Json.obj [("choices",
        Json.arr [Json.obj [("message", Json.obj [("content", Json.str "X")])]])]))
      "t" = "X" :=
  (summarize_success_response_shapes "key" "t" (by decide)).2.2.2

/-- C9 counterexample.  Two concrete responses refute the claim as stated:
with `choices = [" "]` the first element is not an object and the function
returns `""` — an empty summary, and not the stringification `" "` of that
element; with a present-but-empty `content` next to a truthy `text` field
the function returns `"Y"`, not the stringification of the element. -/
theorem stringify_choice_claim_counterexample :
    summarize_text (some "k")
        (ApiOutcome.json (Json.obj [("choices", Json.arr [Json.str " "])])) "txt" = ""
    ∧ pyStr (Json.str " ") = " "
    ∧ summarize_text (some "k")
        (ApiOutcome.json (Json.obj [("choices",
          Json.arr [Json.obj [("message", Json.obj [("content", Json.str "")]),
            ("text", Json.str "Y")]])])) "txt" = "Y"
    ∧ pyStr (Json.obj [("message", Json.obj [("content", Json.str "")]),
        ("text", Json.str "Y")]) ≠ "Y" := by
  refine ⟨by decide, rfl, by decide, by decide⟩

/-- C9 amended.  When the first choices element is not an object, or is an
object whose `message.content` is present but empty while its `text` field
is absent or falsy, `summarize_text` returns the stripped Python
stringification of that element — which is empty when the element is an
empty or whitespace-only string. -/
theorem stringify_choice_amended (k text : String) (choice : Json) (hk : k ≠ "")
    (h : (∀ ckvs, choice ≠ Json.obj ckvs) ∨
         (∃ ckvs mkvs, choice = Json.obj ckvs ∧
            dictLookup ckvs "message" = some (Json.obj mkvs) ∧
            dictLookup mkvs "content" = some (Json.str "") ∧
            truthy (dictGet ckvs "text") = false)) :
    summarize_text (some k)
      (ApiOutcome.json (Json.obj [("choices", Json.arr [choice])])) text
      = pyStripS (pyStr choice) := by
  rcases h with h | ⟨ckvs, mkvs, rfl, h1, h2, h3⟩
  · cases choice with
    | obj ckvs => exact absurd rfl (h ckvs)
    | null =>
        simp [summarize_text, hk, extractContent, chooseContent, index0,
          dictLookup, dictGet, pyOr, truthy]
    | bool b =>
        simp [summarize_text, hk, extractContent, chooseContent, index0,
          dictLookup, dictGet, pyOr, truthy]
    | num n =>
        simp [summarize_text, hk, extractContent, chooseContent, index0,
          dictLookup, dictGet, pyOr, truthy]
    | str s =>
        simp [summarize_text, hk, extractContent, chooseContent, index0,
          dictLookup, dictGet, pyOr, truthy]
    | arr xs =>
        simp [summarize_text, hk, extractContent, chooseContent, index0,
          dictLookup, dictGet, pyOr, truthy]
  · have hmk : mkvs ≠ [] := by
      intro hnil
      rw [hnil] at h2
      simp [dictLookup] at h2
    have hmsg : truthy (Json.obj mkvs) = true := by
      cases mkvs with
      | nil => exact absurd rfl hmk
      | cons a ms => simp [truthy]
    have hempty : truthy (Json.str "") = false := rfl
    simp only [dictGet] at h3
    simp [summarize_text, hk, extractContent, chooseContent, index0, dictLookup,
      dictGet, pyOr, h1, h2, h3, hmsg, hempty]

/-- C9 amended, witness: a `null` first element stringifies to `"None"`. -/
theorem stringify_choice_amended_witness :
    summarize_text (some "k")
      (ApiOutcome.json (Json.obj [("choices", Json.arr [Json.null])])) "t"
      = pyStripS (pyStr Json.null) :=
  stringify_choice_amended "k" "t" Json.null (by decide)
    (Or.inl fun ckvs h => Json.noConfusion h)

/-- C2.  With the endpoint returning the first `cap` of the available
entries (the result-count parameter is honoured server-side, see
`arxivResponse`), `search_arxiv` returns exactly `min available cap`
records; each returned record is built from its feed entry with every
missing field defaulted to the empty string.  The embedding is a total
function: no error reaches the caller. -/
theorem search_arxiv_count_and_defaults (available : List FeedEntry) (cap : Nat) :
    (search_arxiv (FetchOutcome.ok (arxivResponse available cap))).length
      = min available.length cap
    ∧ ∀ p ∈ search_arxiv (FetchOutcome.ok (arxivResponse available cap)),
        ∃ e ∈ arxivResponse available cap, p = recordOfEntry e
          ∧ (e.title = none → p.title = "")
          ∧ (e.summary = none → p.summary = "")
          ∧ (e.link = none → p.link = "")
          ∧ (e.authors = none → p.authors = "")
          ∧ (e.published = none → p.published = "")
          ∧ (e.id = none → p.id = "") := by
  constructor
  · simp [search_arxiv, arxivResponse, Nat.min_comm]
  · intro p hp
    simp only [search_arxiv, List.mem_map] at hp
    obtain ⟨e, he, rfl⟩ := hp
    refine ⟨e, he, rfl, ?_, ?_, ?_, ?_, ?_, ?_⟩ <;> intro h <;>
      simp [recordOfEntry, h] <;> decide

/-- C2 witness: the all-absent entry yields the all-empty record. -/
theorem search_arxiv_count_and_defaults_witness :
    ∃ e ∈ arxivResponse [sampleEntry] 3, recordOfEntry sampleEntry = recordOfEntry e
      ∧ (e.title = none → (recordOfEntry sampleEntry).title = "")
      ∧ (e.summary = none → (recordOfEntry sampleEntry).summary = "")
      ∧ (e.link = none → (recordOfEntry sampleEntry).link = "")
      ∧ (e.authors = none → (recordOfEntry sampleEntry).authors = "")
      ∧ (e.published = none → (recordOfEntry sampleEntry).published = "")
      ∧ (e.id = none → (recordOfEntry sampleEntry).id = "") :=
  (search_arxiv_count_and_defaults [sampleEntry] 3).2 (recordOfEntry sampleEntry)
    (by decide)

theorem dropWhile_head_false {α : Type} (p : α → Bool) :
    ∀ (l : List α) (c : α), (l.dropWhile p).head? = some c → p c = false := by
  intro l
  induction l with
  | nil => intro c h; simp at h
  | cons a t ih =>
      intro c h
      rw [List.dropWhile_cons] at h
      split at h
      · exact ih c h
      · next hpa =>
          simp only [List.head?_cons, Option.some.injEq] at h
          subst h
          simpa using hpa

theorem dropWhile_getLast_eq {α : Type} (p : α → Bool) :
    ∀ l : List α, l.dropWhile p ≠ [] → (l.dropWhile p).getLast? = l.getLast? := by
  intro l
  induction l with
  | nil => intro h; simp at h
  | cons a t ih =>
      intro h
      by_cases hpa : p a = true
      · rw [List.dropWhile_cons, if_pos hpa] at h ⊢
        have ht : t ≠ [] := by
          intro ht0
          rw [ht0] at h
          simp at h
        rw [ih h]
        cases t with
        | nil => exact absurd rfl ht
        | cons b t2 => rw [List.getLast?_cons_cons]
      · rw [List.dropWhile_cons, if_neg hpa]

theorem pyStripL_head_not_ws (l : List Char) (c : Char)
    (h : (pyStripL l).head? = some c) : c.isWhitespace = false := by
  unfold pyStripL at h
  rw [List.head?_reverse] at h
  have hne : (List.dropWhile Char.isWhitespace
      (List.dropWhile Char.isWhitespace l).reverse) ≠ [] := by
    intro h0
    rw [h0] at h
    simp at h
  rw [dropWhile_getLast_eq _ _ hne, List.getLast?_reverse] at h
  exact dropWhile_head_false _ _ _ h

theorem pyStripL_getLast_not_ws (l : List Char) (c : Char)
    (h : (pyStripL l).getLast? = some c) : c.isWhitespace = false := by
  unfold pyStripL at h
  rw [List.getLast?_reverse] at h
  exact dropWhile_head_false _ _ _ h

theorem summarize_text_is_stripped (key : Option String) (o : ApiOutcome)
    (text : String) :
    ∃ m : List Char, summarize_text key o text = String.mk (pyStripL m) := by
  unfold summarize_text
  by_cases hk : key.getD "" = ""
  · rw [if_pos hk]; exact ⟨_, rfl⟩
  · rw [if_neg hk]
    cases o with
    | exn => exact ⟨_, rfl⟩
    | json data =>
        cases hx : extractContent data with
        | none => simp only [hx]; exact ⟨_, rfl⟩
        | some s => simp only [hx]; exact ⟨s.data, rfl⟩

/-- C10.  On every path — no-credential fallback, either successful
response shape, stringified structure, exception fallback — the returned
string has no leading and no trailing whitespace: every return site of
`summarize_text` applies `strip`. -/
theorem summarize_output_stripped (key : Option String) (o : ApiOutcome)
    (text : String) (c : Char)
    (h : (summarize_text key o text).data.head? = some c
       ∨ (summarize_text key o text).data.getLast? = some c) :
    c.isWhitespace = false := by
  obtain ⟨m, hm⟩ := summarize_text_is_stripped key o text
  rw [hm] at h
  rcases h with h | h
  · exact pyStripL_head_not_ws m c h
  · exact pyStripL_getLast_not_ws m c h

/-- C10 witness: the first character of a concrete summary is not
whitespace. -/
theorem summarize_output_stripped_witness : Char.isWhitespace 'a' = false :=
  summarize_output_stripped none ApiOutcome.exn "a" 'a' (Or.inl (by decide))

theorem mem_dropWhile_of_not {α : Type} (p : α → Bool) :
    ∀ (l : List α) (d : α), d ∈ l → p d = false → d ∈ l.dropWhile p := by
  intro l
  induction l with
  | nil => intro d h; simp at h
  | cons a t ih =>
      intro d hd hp
      rw [List.dropWhile_cons]
      split
      · next hpa =>
          rcases List.mem_cons.mp hd with rfl | hdt
          · rw [hp] at hpa; cases hpa
          · exact ih d hdt hp
      · exact hd

theorem mem_pyStripL_of_not_ws (l : List Char) (d : Char) (hd : d ∈ l)
    (hw : d.isWhitespace = false) : d ∈ pyStripL l := by
  unfold pyStripL
  rw [List.mem_reverse]
  apply mem_dropWhile_of_not _ _ _ _ hw
  rw [List.mem_reverse]
  exact mem_dropWhile_of_not _ _ _ hd hw

theorem mem_joinSp_head (p : List Char) (ps : List (List Char)) (d : Char)
    (hd : d ∈ p) : d ∈ joinSp (p :: ps) := by
  cases ps with
  | nil => simpa [joinSp] using hd
  | cons q ps2 =>
      simp only [joinSp]
      exact List.mem_append.mpr (Or.inl hd)

/-- The first piece produced by the (buggy) splitter is either the whole
remaining input (when no split point ever fires) or contains a sentence
punctuation character (the lookbehind of the first split point). -/
theorem buggySplitAux_first :
    ∀ (l : List Char) (prev : Option Char) (acc : List Char),
      (∀ c, prev = some c → sentKeep c = true → c ∈ acc) →
      ∃ p rest, buggySplitAux false prev acc l = p :: rest
        ∧ (p = acc.reverse ++ l ∨ ∃ c ∈ p, sentKeep c = true) := by
  intro l
  induction l with
  | nil =>
      intro prev acc hinv
      exact ⟨acc.reverse, [], rfl, Or.inl (by simp)⟩
  | cons c0 rest ih =>
      intro prev acc hinv
      by_cases hq : prevKeep prev = true ∧ c0 = '\\' ∧ rest.head? = some 's'
      · refine ⟨acc.reverse, buggySplitAux true (some '\\') [] rest, ?_, ?_⟩
        · show buggySplitAux false prev acc (c0 :: rest) = _
          rw [buggySplitAux]
          rw [if_neg (by simp), if_pos hq]
        · right
          obtain ⟨cp, hcp, hsk⟩ : ∃ cp, prev = some cp ∧ sentKeep cp = true := by
            cases prev with
            | none => simp [prevKeep] at hq
            | some cp => exact ⟨cp, rfl, by simpa [prevKeep] using hq.1⟩
          exact ⟨cp, List.mem_reverse.mpr (hinv cp hcp hsk), hsk⟩
      · obtain ⟨p, r2, heq, hp⟩ := ih (some c0) (c0 :: acc) (by
          intro c hc _
          cases hc
          exact List.mem_cons_self _ _)
        refine ⟨p, r2, ?_, ?_⟩
        · show buggySplitAux false prev acc (c0 :: rest) = _
          rw [buggySplitAux]
          rw [if_neg (by simp), if_neg hq]
          exact heq
        · rcases hp with hp | hp
          · left
            rw [hp]
            simp
          · right
            exact hp

theorem fallback_nonempty_of_nonblank (text : String)
    (h : ∃ c ∈ text.data, c.isWhitespace = false) :
    fallbackSummary text ≠ "" := by
  obtain ⟨c, hc, hcw⟩ := h
  obtain ⟨p, rest, heq, hp⟩ :=
    buggySplitAux_first text.data none [] (by intro c h1 _; cases h1)
  have hd : ∃ d, d ∈ p ∧ d.isWhitespace = false := by
    rcases hp with hp | ⟨d, hd, hdk⟩
    · rw [hp]
      exact ⟨c, by simpa using hc, hcw⟩
    · refine ⟨d, hd, ?_⟩
      have : (d = '.' ∨ d = '!') ∨ d = '?' := by
        simpa [sentKeep] using hdk
      rcases this with (rfl | rfl) | rfl <;> decide
  obtain ⟨d, hdp, hdw⟩ := hd
  have hj : d ∈ joinSp ((buggySplit text).take 3) := by
    have hbs : buggySplit text = p :: rest := heq
    rw [hbs, List.take_succ_cons]
    exact mem_joinSp_head _ _ _ hdp
  have hmem : d ∈ pyStripL (joinSp ((buggySplit text).take 3)) :=
    mem_pyStripL_of_not_ws _ _ hj hdw
  intro h0
  have hdata : pyStripL (joinSp ((buggySplit text).take 3)) = [] := by
    have := congrArg String.data h0
    simpa [fallbackSummary] using this
  rw [hdata] at hmem
  simp at hmem

/-- C7 counterexample.  The claim fails as stated: the whitespace-only
input `" "` is non-empty yet the no-credential fallback strips it to the
empty string, and on the API path a non-empty input yields an empty
summary when the first choices element stringifies to empty. -/
theorem summarize_nonempty_claim_counterexample :
    (" " : String) ≠ "" ∧ summarize_text none ApiOutcome.exn " " = ""
    ∧ ("hello" : String) ≠ ""
    ∧ summarize_text (some "k")
        (ApiOutcome.json (Json.obj [("choices", Json.arr [Json.str ""])]))
        "hello" = "" := by
  exact ⟨by decide, by decide, by decide, by decide⟩

/-- C7 amended.  For every input holding at least one non-whitespace
character, `summarize_text` returns a non-empty string on the fallback
paths (no credential configured, and any credential with a failing
request); the API-success path can still return the empty string when the
first choices element stringifies and strips to empty. -/
theorem summarize_fallback_nonempty_of_nonblank (key : Option String)
    (o : ApiOutcome) (text : String)
    (h : ∃ c ∈ text.data, c.isWhitespace = false) :
    summarize_text key ApiOutcome.exn text ≠ ""
    ∧ summarize_text none o text ≠ "" := by
  have hf := fallback_nonempty_of_nonblank text h
  constructor
  · by_cases hk : key.getD "" = "" <;> simpa [summarize_text, hk] using hf
  · simpa [summarize_text] using hf

/-- C7 amended, witness. -/
theorem summarize_fallback_nonempty_of_nonblank_witness :
    summarize_text none ApiOutcome.exn "hi" ≠ ""
    ∧ summarize_text none ApiOutcome.exn "hi" ≠ "" :=
  summarize_fallback_nonempty_of_nonblank none ApiOutcome.exn "hi"
    ⟨'h', by decide, by decide⟩

theorem digestLoop_eq (key : Option String) (o : Nat → ApiOutcome) :
    ∀ (papers : List PaperRecord) (i : Nat) (lines : List String),
      digestLoop key o i papers lines = lines ++ sectionBlocks key o i papers := by
  intro papers
  induction papers with
  | nil => intro i lines; simp [digestLoop, sectionBlocks]
  | cons p rest ih =>
      intro i lines
      simp only [digestLoop, sectionBlocks, ih, List.append_assoc]

theorem sectionBlocks_length (key : Option String) (o : Nat → ApiOutcome) :
    ∀ (papers : List PaperRecord) (i : Nat),
      (sectionBlocks key o i papers).length = 4 * papers.length := by
  intro papers
  induction papers with
  | nil => intro i; simp [sectionBlocks]
  | cons p rest ih =>
      intro i
      simp only [sectionBlocks, paperBlock, List.length_append, ih,
        List.length_cons]
      simp [List.length]
      omega

theorem get?_cons4 {α : Type} (x1 x2 x3 x4 : α) (l : List α) (m : Nat) :
    (x1 :: x2 :: x3 :: x4 :: l).get? (m + 4) = l.get? m := by
  have h4 : m + 4 = (((m + 1) + 1) + 1) + 1 := by omega
  rw [h4, List.get?_cons_succ, List.get?_cons_succ, List.get?_cons_succ,
    List.get?_cons_succ]

theorem sectionBlocks_get (key : Option String) (o : Nat → ApiOutcome) :
    ∀ (papers : List PaperRecord) (j : Nat) (h : j < papers.length) (i : Nat),
      (sectionBlocks key o i papers).get? (4 * j)
          = some ("### " ++ toString (i + j) ++ ". " ++ (papers.get ⟨j, h⟩).title)
      ∧ (sectionBlocks key o i papers).get? (4 * j + 1)
          = some ("**Authors:** " ++ (papers.get ⟨j, h⟩).authors)
      ∧ (sectionBlocks key o i papers).get? (4 * j + 2)
          = some ("**Summary:** "
              ++ summarize_text key (o (i + j)) (papers.get ⟨j, h⟩).summary)
      ∧ (sectionBlocks key o i papers).get? (4 * j + 3)
          = some ("[Read on arXiv](" ++ (papers.get ⟨j, h⟩).link ++ ")\n") := by
  intro papers
  induction papers with
  | nil => intro j h; exact absurd h (by simp)
  | cons p rest ih =>
      intro j h i
      cases j with
      | zero =>
          simp [sectionBlocks, paperBlock]
      | succ j2 =>
          have hj2 : j2 < rest.length := by
            simpa [Nat.succ_lt_succ_iff] using h
          have harith : ∀ k : Nat, 4 * (j2 + 1) + k = (4 * j2 + k) + 4 := by
            intro k; omega
          have hrw : sectionBlocks key o i (p :: rest)
              = (paperBlock key (o i) i p) ++ sectionBlocks key o (i + 1) rest := rfl
          obtain ⟨ih1, ih2, ih3, ih4⟩ := ih j2 hj2 (i + 1)
          have hadd : i + 1 + j2 = i + (j2 + 1) := by omega
          rw [hadd] at ih1 ih3
          refine ⟨?_, ?_, ?_, ?_⟩
          · rw [hrw, paperBlock, List.cons_append, List.cons_append,
              List.cons_append, List.cons_append, List.nil_append]
            have : 4 * (j2 + 1) = 4 * j2 + 4 := by omega
            rw [this, get?_cons4]
            simpa using ih1
          · rw [hrw, paperBlock, List.cons_append, List.cons_append,
              List.cons_append, List.cons_append, List.nil_append]
            rw [harith 1, get?_cons4]
            simpa using ih2
          · rw [hrw, paperBlock, List.cons_append, List.cons_append,
              List.cons_append, List.cons_append, List.nil_append]
            rw [harith 2, get?_cons4]
            simpa using ih3
          · rw [hrw, paperBlock, List.cons_append, List.cons_append,
              List.cons_append, List.cons_append, List.nil_append]
            rw [harith 3, get?_cons4]
            simpa using ih4

/-- C6.  The digest is the join of a line list that holds the title line
first and then exactly `4 * n` lines: for every input index `j`, the block
of paper `j` sits at positions `4 j + 1 .. 4 j + 4` with the 1-based
ordinal `j + 1`, that paper's title heading, its authors line, its
summarized text and a Markdown link to its `link` field — no paper is
reordered, filtered or duplicated. -/
theorem digest_sections_match_input_order (today : String) (key : Option String)
    (o : Nat → ApiOutcome) (papers : List PaperRecord) :
    generate_digest today key o papers
      = String.intercalate "\n" (digestLoop key o 1 papers [headerLine today])
    ∧ (digestLoop key o 1 papers [headerLine today]).length = 1 + 4 * papers.length
    ∧ (digestLoop key o 1 papers [headerLine today]).get? 0 = some (headerLine today)
    ∧ ∀ (j : Nat) (h : j < papers.length),
        (digestLoop key o 1 papers [headerLine today]).get? (4 * j + 1)
            = some ("### " ++ toString (j + 1) ++ ". " ++ (papers.get ⟨j, h⟩).title)
        ∧ (digestLoop key o 1 papers [headerLine today]).get? (4 * j + 2)
            = some ("**Authors:** " ++ (papers.get ⟨j, h⟩).authors)
        ∧ (digestLoop key o 1 papers [headerLine today]).get? (4 * j + 3)
            = some ("**Summary:** "
                ++ summarize_text key (o (j + 1)) (papers.get ⟨j, h⟩).summary)
        ∧ (digestLoop key o 1 papers [headerLine today]).get? (4 * j + 4)
            = some ("[Read on arXiv](" ++ (papers.get ⟨j, h⟩).link ++ ")\n") := by
  refine ⟨rfl, ?_, ?_, ?_⟩
  · rw [digestLoop_eq]
    simp [sectionBlocks_length]
    omega
  · rw [digestLoop_eq]
    rfl
  · intro j h
    obtain ⟨g1, g2, g3, g4⟩ := sectionBlocks_get key o papers j h 1
    have hcomm : 1 + j = j + 1 := by omega
    rw [hcomm] at g1 g3
    rw [digestLoop_eq]
    have hcons : [headerLine today] ++ sectionBlocks key o 1 papers
        = headerLine today :: sectionBlocks key o 1 papers := rfl
    rw [hcons]
    refine ⟨?_, ?_, ?_, ?_⟩
    · rw [show 4 * j + 1 = (4 * j) + 1 from rfl, List.get?_cons_succ]
      exact g1
    · rw [show 4 * j + 2 = (4 * j + 1) + 1 from rfl, List.get?_cons_succ]
      exact g2
    · rw [show 4 * j + 3 = (4 * j + 2) + 1 from rfl, List.get?_cons_succ]
      exact g3
    · rw [show 4 * j + 4 = (4 * j + 3) + 1 from rfl, List.get?_cons_succ]
      exact g4

/-- C6 witness: with one synthetic paper, the line after the title line is
the numbered section heading of that paper. -/
theorem digest_sections_match_input_order_witness :
    (digestLoop none (fun _ => ApiOutcome.exn) 1 [samplePaper]
        [headerLine "2026-10-12"]).get? (4 * 0 + 1)
      = some ("### " ++ toString (0 + 1) ++ ". "
          ++ (([samplePaper] : List PaperRecord).get ⟨0, by decide⟩).title) :=
  ((digest_sections_match_input_order "2026-10-12" none (fun _ => ApiOutcome.exn)
      [samplePaper]).2.2.2 0 (by decide)).1
